import Mathlib

/-!
Shallow embedding of the cqlguery package (src/connect.go): cluster
configuration options, per-call query options, the liveness probe, and the
reconnection supervisor loop, together with theorems settling the claims
about them.  Driver-side values (gocql / gocqlx) are modelled abstractly:
consistency levels as naturals, durations as integer nanoseconds (or, in
the supervisor timing model, natural milliseconds), retry and
host-selection policies as small inductive value types, and the gocqlx
query builder as a record of the statement, names and applied modifiers.
-/

/-- Model of gocql retry-policy values reachable from this package. -/
inductive RetryPolicyV where
  | exponentialBackoff (numRetries : Nat) (minD maxD : Int)
  | other (id : Nat)
  deriving DecidableEq, Repr

/-- Model of gocql host-selection-policy values reachable from this package. -/
inductive HostPolicyV where
  | tokenAwareRoundRobin
  | other (id : Nat)
  deriving DecidableEq, Repr

/-- The mutable gocql.ClusterConfig fields this package touches.  Durations
are in nanoseconds, matching Go time.Duration; the authenticator is the
(Username, Password) pair of a PasswordAuthenticator. -/
structure ClusterConfig where
  Hosts : List String
  Keyspace : String
  Consistency : Nat
  Timeout : Int
  Authenticator : Option (String × String)
  RetryPolicy : Option RetryPolicyV
  HostSelectionPolicy : Option HostPolicyV
  CQLVersion : String
  ProtoVersion : Int
  deriving DecidableEq, Repr

/-- The configuration gocql.NewCluster returns (driver collaborator defaults:
no keyspace, Quorum consistency (= 4), 11 s timeout, no authenticator or
policies set, CQL version 3.0.0). -/
def NewCluster : ClusterConfig :=
  { Hosts := []
    Keyspace := ""
    Consistency := 4
    Timeout := 11 * 1000000000
    Authenticator := none
    RetryPolicy := none
    HostSelectionPolicy := none
    CQLVersion := "3.0.0"
    ProtoVersion := 0 }

/-- Go: type Option func(config *gocql.ClusterConfig), modelled functionally. -/
abbrev ClusterOpt := ClusterConfig → ClusterConfig

/-- Go: type Options []Option. -/
abbrev Options := List ClusterOpt

/-- Go: func (opts Options) add(o ...Option) Options. -/
def Options.add (opts : Options) (o : List ClusterOpt) : Options :=
  opts ++ o

/-- Go: func (opts Options) apply(c *gocql.ClusterConfig), applying each
option in list order. -/
def Options.apply (opts : Options) (c : ClusterConfig) : ClusterConfig :=
  opts.foldl (fun c o => o c) c

def WithHosts (hosts : List String) : ClusterOpt :=
  fun config => { config with Hosts := hosts }

def WithKeyspace (keyspace : String) : ClusterOpt :=
  fun config => { config with Keyspace := keyspace }

def WithConsistency (consistency : Nat) : ClusterOpt :=
  fun config => { config with Consistency := consistency }

def WithTimeout (timeout : Int) : ClusterOpt :=
  fun config => { config with Timeout := timeout }

/-- In the source the first parameter p is stored as Username and the second
parameter u as Password; the model keeps that (Username, Password) order. -/
def WithPasswordUsername (p u : String) : ClusterOpt :=
  fun config => { config with Authenticator := some (p, u) }

/-- The baseline option list: 10 s timeout, consistency One (= 1),
exponential-backoff retry with 5 attempts between 5 ms and 5 s, and
token-aware round-robin host selection. -/
def DefaultOption : Options :=
  [ WithTimeout (10 * 1000000000)
  , WithConsistency 1
  , fun config =>
      { config with
          RetryPolicy := some (.exponentialBackoff 5 (5 * 1000000) (5 * 1000000000)) }
  , fun config =>
      { config with HostSelectionPolicy := some .tokenAwareRoundRobin } ]

def defaultOption : Options := DefaultOption

/-- The cluster configuration Connect hands to CreateSession: a fresh
NewCluster value, the default options followed by the caller overrides
applied in order, then the pinned CQL/protocol version fields. -/
def connectCluster (options : List ClusterOpt) : ClusterConfig :=
  let cluster := Options.apply (Options.add defaultOption options) NewCluster
  { cluster with CQLVersion := "3.11", ProtoVersion := 3 }

/-- Model of the Session struct: its (never-assigned) options field and the
current connection handle, abstracted as a numeric id. -/
structure Session where
  options : Options
  s : Nat

/-- The Session value Connect returns on factory success: it is built as
Session with only the s field set, so options keeps the Go zero value (nil),
whatever overrides the caller passed. -/
def ConnectSession (handle : Nat) (_options : List ClusterOpt) : Session :=
  { options := [], s := handle }

/-- The cluster configuration the supervisor reconnection path builds:
Session.Connect calls Connect(ctx) with no options at all. -/
def reconnectCluster : ClusterConfig := connectCluster []

/-- C6: in the configuration Connect builds, baseline defaults are applied
first and caller overrides after, in order; whatever options precede it, a
final override of a field decides that field, and with no overrides the
baseline default for the field survives. -/
theorem connect_later_overrides_win (opts : List ClusterOpt) (hosts : List String)
    (k : String) (cons : Nat) (t : Int) (p u : String) :
    (connectCluster (opts ++ [WithHosts hosts])).Hosts = hosts ∧
    (connectCluster (opts ++ [WithKeyspace k])).Keyspace = k ∧
    (connectCluster (opts ++ [WithConsistency cons])).Consistency = cons ∧
    (connectCluster (opts ++ [WithTimeout t])).Timeout = t ∧
    (connectCluster (opts ++ [WithPasswordUsername p u])).Authenticator = some (p, u) ∧
    (connectCluster []).Timeout = 10 * 1000000000 ∧
    (connectCluster []).Consistency = 1 := by
  refine ⟨?_, ?_, ?_, ?_, ?_, rfl, rfl⟩ <;>
    simp [connectCluster, Options.apply, Options.add, List.foldl_append,
      WithHosts, WithKeyspace, WithConsistency, WithTimeout, WithPasswordUsername]

/-- C2 (code bug): a Session built by Connect does not retain its originating
overrides (the options field keeps its zero value), and the configuration the
reconnection path builds is baseline-only — for a session created with
keyspace "ks", reconnection produces the driver default empty keyspace. -/
theorem session_config_lost_on_reconnect :
    (ConnectSession 0 [WithKeyspace "ks"]).options = [] ∧
    (connectCluster [WithKeyspace "ks"]).Keyspace = "ks" ∧
    reconnectCluster.Keyspace = "" :=
  ⟨rfl, rfl, rfl⟩

/-- Per-call query option record (source struct QueryOption).  Bound values
([]any in Go) are modelled as a list of naturals; all fields start unset
(the Go zero value), matching `var opt QueryOption`. -/
structure QueryOption where
  strict : Option Bool := none
  idenpoten : Option Bool := none
  con : Option Nat := none
  rp : Option RetryPolicyV := none
  value : List Nat := []
  names : List String := []
  deriving DecidableEq, Repr

/-- Model of the gocqlx query builder: the statement and names it was built
from and the modifiers applied to it so far. -/
structure Queryx where
  stmt : String
  names : List String
  strictOn : Bool := false
  idempotent : Option Bool := none
  consistency : Option Nat := none
  retryPolicy : Option RetryPolicyV := none
  deriving DecidableEq, Repr

def Queryx.Strict (q : Queryx) : Queryx := { q with strictOn := true }

def Queryx.Idempotent (q : Queryx) (i : Bool) : Queryx := { q with idempotent := some i }

def Queryx.Consistency (q : Queryx) (c : Nat) : Queryx := { q with consistency := some c }

def Queryx.RetryPolicy (q : Queryx) (rp : RetryPolicyV) : Queryx :=
  { q with retryPolicy := some rp }

/-- Model of s.ContextQuery(ctx, query, names): a fresh builder with no
modifiers applied. -/
def ContextQuery (query : String) (names : List String) : Queryx :=
  { stmt := query, names := names }

/-- Go: func (qo *QueryOption) apply(q *gocqlx.Queryx) *gocqlx.Queryx —
strict first (only when set and true), then idempotency, consistency and
retry policy, each only when set. -/
def QueryOption.apply (qo : QueryOption) (q : Queryx) : Queryx :=
  let q := if qo.strict = some true then q.Strict else q
  let q := match qo.idenpoten with
    | some i => q.Idempotent i
    | none => q
  let q := match qo.con with
    | some c => q.Consistency c
    | none => q
  match qo.rp with
  | some rp => q.RetryPolicy rp
  | none => q

/-- Go: type QueryOptionFunc func(qo *QueryOption), modelled functionally. -/
abbrev QueryOptionFunc := QueryOption → QueryOption

def Strict : QueryOptionFunc :=
  fun qo => { qo with strict := some true }

def Idenpotent (i : Bool) : QueryOptionFunc :=
  fun qo => { qo with idenpoten := some i }

def Consistency (c : Nat) : QueryOptionFunc :=
  fun qo => { qo with con := some c }

def RetryPolicy (rp : RetryPolicyV) : QueryOptionFunc :=
  fun qo => { qo with rp := some rp }

def BindV (v : List Nat) : QueryOptionFunc :=
  fun qo => { qo with value := v }

def Names (names : List String) : QueryOptionFunc :=
  fun qo => { qo with names := names }

/-- Go: type QueryOptions []QueryOptionFunc with apply folding the list in
order over the option record. -/
abbrev QueryOptions := List QueryOptionFunc

def QueryOptions.apply (opts : QueryOptions) (qo : QueryOption) : QueryOption :=
  opts.foldl (fun qo o => o qo) qo

/-- The query Session.Get hands to the driver: options resolved, names fed
into ContextQuery, and the resolved modifiers applied via opt.apply. -/
def Get (query : String) (optionFunc : List QueryOptionFunc) : Queryx :=
  let opt := QueryOptions.apply optionFunc {}
  QueryOption.apply opt (ContextQuery query opt.names)

/-- The query Session.Iter hands to the driver: same pipeline as Get. -/
def Iter (query : String) (optionFunc : List QueryOptionFunc) : Queryx :=
  let opt := QueryOptions.apply optionFunc {}
  QueryOption.apply opt (ContextQuery query opt.names)

/-- The query Session.Select hands to the driver: the options are resolved,
but only opt.names is used — opt.apply is never called on this path. -/
def Select (query : String) (optionFunc : List QueryOptionFunc) : Queryx :=
  let opt := QueryOptions.apply optionFunc {}
  ContextQuery query opt.names

/-- C1 (code bug): Get and Iter apply the resolved per-call modifiers to the
query before execution, but Select does not — with the override list
[Idenpotent true], the query Select executes still has no idempotency
modifier, while Get and Iter carry it. -/
theorem select_drops_modifiers_bug :
    (Select "SELECT * FROM t" [Idenpotent true]).idempotent = none ∧
    (Get "SELECT * FROM t" [Idenpotent true]).idempotent = some true ∧
    (Iter "SELECT * FROM t" [Idenpotent true]).idempotent = some true :=
  ⟨rfl, rfl, rfl⟩

/-- C7: resolving [Idenpotent true, Consistency X, Idenpotent false] yields
idempotency false and consistency X — the last override of a field wins. -/
theorem resolve_last_write_wins (X : Nat) :
    (QueryOptions.apply [Idenpotent true, Consistency X, Idenpotent false] {}).idenpoten
      = some false ∧
    (QueryOptions.apply [Idenpotent true, Consistency X, Idenpotent false] {}).con
      = some X :=
  ⟨rfl, rfl⟩

/-- C3: values given via BindV (source name Bind, taken in Lean) land in the resolved options but leave the
executed query of all three operations untouched, while Names does reach the
executed query. -/
theorem bind_values_not_applied (query : String) (opts : List QueryOptionFunc)
    (vs : List Nat) (ns : List String) :
    (QueryOptions.apply (opts ++ [BindV vs]) {}).value = vs ∧
    Get query (opts ++ [BindV vs]) = Get query opts ∧
    Select query (opts ++ [BindV vs]) = Select query opts ∧
    Iter query (opts ++ [BindV vs]) = Iter query opts ∧
    (Get query (opts ++ [Names ns])).names = ns ∧
    (Select query (opts ++ [Names ns])).names = ns ∧
    (Iter query (opts ++ [Names ns])).names = ns := by
  have hb : QueryOptions.apply (opts ++ [BindV vs]) {}
      = { QueryOptions.apply opts {} with value := vs } := by
    simp [QueryOptions.apply, List.foldl_append, BindV]
  have hn : QueryOptions.apply (opts ++ [Names ns]) {}
      = { QueryOptions.apply opts {} with names := ns } := by
    simp [QueryOptions.apply, List.foldl_append, Names]
  have happly : ∀ (qo : QueryOption) (q : Queryx),
      (QueryOption.apply qo q).names = q.names := by
    intro qo q
    unfold QueryOption.apply
    cases qo.strict <;> cases qo.idenpoten <;> cases qo.con <;> cases qo.rp <;>
      simp [Queryx.Strict, Queryx.Idempotent, Queryx.Consistency, Queryx.RetryPolicy] <;>
      split <;> rfl
  refine ⟨by rw [hb], ?_, ?_, ?_, ?_, ?_, ?_⟩ <;>
    simp only [Get, Select, Iter, hb, hn, happly, ContextQuery] <;> rfl

/-- The errors Ping can return: a driver-level error propagated from the
Select call, or the validation error built with errors.New for an empty
result. -/
inductive PingError where
  | driver (e : String)
  | emptyUUID
  deriving DecidableEq, Repr

/-- Go: const pingQuery. -/
def pingQuery : String := "SELECT uuid() FROM system.local;"

/-- Go: func (s *Session) Ping(ctx context.Context) error.  The driver-side
outcome of a Select call is an oracle from statement to either an error or
the scanned scalar string; Ping runs it on pingQuery, propagates a driver
error, rejects an empty string with its own validation error, and returns
nil (none) otherwise. -/
def Ping (selectOutcome : String → Except String String) : Option PingError :=
  match selectOutcome pingQuery with
  | .error e => some (.driver e)
  | .ok uid => if uid = "" then some .emptyUUID else none

/-- C9: Ping returns nil exactly when the fixed probe query succeeds with a
non-empty scalar string; an empty result gives the distinct validation
error, which differs from every driver-level error; a driver error is
propagated as such. -/
theorem ping_validates_nonempty_scalar (f : String → Except String String) :
    (Ping f = none ↔ ∃ s, f pingQuery = Except.ok s ∧ s ≠ "") ∧
    (f pingQuery = Except.ok "" → Ping f = some PingError.emptyUUID) ∧
    (∀ e, PingError.emptyUUID ≠ PingError.driver e) ∧
    (∀ e, f pingQuery = Except.error e → Ping f = some (PingError.driver e)) := by
  refine ⟨?_, ?_, fun e => by simp, ?_⟩
  · unfold Ping
    cases h : f pingQuery with
    | error e => simp
    | ok s =>
      by_cases hs : s = "" <;> simp [hs]
  · intro h
    simp [Ping, h]
  · intro e h
    simp [Ping, h]

/-- C9 witness: for the concrete outcome returning "abc" the equivalences of
the Ping theorem evaluate as expected. -/
theorem ping_validates_nonempty_scalar_witness :
    Ping (fun _ => Except.ok "abc") = none ∧
    Ping (fun _ => Except.ok "") = some PingError.emptyUUID ∧
    Ping (fun _ => Except.error "conn refused") = some (PingError.driver "conn refused") :=
  ⟨(ping_validates_nonempty_scalar (fun _ => Except.ok "abc")).1.mpr
      ⟨"abc", rfl, by decide⟩,
    (ping_validates_nonempty_scalar (fun _ => Except.ok "")).2.1 rfl,
    (ping_validates_nonempty_scalar (fun _ => Except.error "conn refused")).2.2.2
      "conn refused" rfl⟩

/-- Go: const reconnectAttempts = 10. -/
def reconnectAttempts : Nat := 10

/-- Go: const pingInterval = time.Second, modelled in milliseconds. -/
def pingInterval : Nat := 1000

/-- Environment driving one HandleConnect loop: the outcome and duration (in
milliseconds) of the n-th Ping and of the n-th nested Connect call, and the
absolute time (if any) at which the governing context becomes Done. -/
structure Oracle where
  pingOk : Nat → Bool
  pingDur : Nat → Nat
  connectOk : Nat → Bool
  connectDur : Nat → Nat
  cancelAt : Option Nat

/-- Whether the governing context is Done at absolute time t. -/
def Oracle.cancelled (o : Oracle) (t : Nat) : Bool :=
  match o.cancelAt with
  | none => false
  | some c => decide (c ≤ t)

/-- Supervisor loop state: current absolute time, the absolute time at which
the timer fires next, how many Ping and Connect calls happened so far, and
the session's current connection handle id (0 for the initial handle; a
successful n-th Connect call installs handle n + 1). -/
structure SupState where
  clock : Nat
  deadline : Nat
  pings : Nat
  conns : Nat
  handle : Nat
  deriving DecidableEq, Repr

/-- Observable events of one supervisor loop: a probe (Ping) starting at a
time with its outcome, a factory (nested Connect) call starting at a time
with its outcome, and the spawn of a fresh supervisor goroutine — Connect
runs go session.HandleConnect(ctx) for every session it builds, so each
successful factory call inside recovery spawns one more supervisor whose
inner session shares the handle that is swapped into the outer session. -/
inductive Event where
  | probe (start : Nat) (ok : Bool)
  | factory (start : Nat) (ok : Bool)
  | spawn (handle : Nat)
  deriving DecidableEq, Repr

/-- The recovery loop `for a := 0; a < reconnectAttempts && err != nil`:
up to n factory calls, stopping at the first success, which swaps the handle
and spawns the nested supervisor.  Returns the state after the loop, the
events emitted, and whether a call succeeded.  The context is not consulted
anywhere in this loop, mirroring the source. -/
def recover (o : Oracle) : Nat → SupState → SupState × List Event × Bool
  | 0, st => (st, [], false)
  | n + 1, st =>
    let ok := o.connectOk st.conns
    let newHandle := st.conns + 1
    let st1 : SupState :=
      { st with
          clock := st.clock + o.connectDur st.conns
          conns := st.conns + 1
          handle := if ok then newHandle else st.handle }
    if ok then (st1, [Event.factory st.clock true, Event.spawn newHandle], true)
    else
      let r := recover o n st1
      (r.1, Event.factory st.clock false :: r.2.1, r.2.2)

/-- The absolute time at which the select at the top of the loop resolves:
the timer deadline, or now if the deadline already passed. -/
def fireTime (st : SupState) : Nat := max st.clock st.deadline

/-- The state right after the n-th Ping call returns: the clock advanced by
the ping duration and the ping counter bumped. -/
def afterPing (o : Oracle) (st : SupState) : SupState :=
  { st with clock := fireTime st + o.pingDur st.pings, pings := st.pings + 1 }

/-- ticker.Reset(pingInterval): the timer next fires one interval from now. -/
def resetTimer (st : SupState) : SupState :=
  { st with deadline := st.clock + pingInterval }

/-- Go: func (s *Session) HandleConnect(ctx context.Context), driven by the
oracle, with fuel bounding the number of loop iterations.  The select at the
top of the loop resolves at the timer deadline unless the context is Done by
then (Done is given priority when both are ready).  On ping success the
timer is reset to one interval past the end of the ping; on ping failure the
recovery loop runs, and the loop returns if recovery fails, or resets the
timer and continues if recovery succeeds. -/
def runSup (o : Oracle) : Nat → SupState → List Event × SupState
  | 0, st => ([], st)
  | fuel + 1, st =>
    if o.cancelled (fireTime st) then ([], st)
    else if o.pingOk st.pings then
      let r := runSup o fuel (resetTimer (afterPing o st))
      (Event.probe (fireTime st) true :: r.1, r.2)
    else
      let rcv := recover o reconnectAttempts (afterPing o st)
      if rcv.2.2 then
        let r := runSup o fuel (resetTimer rcv.1)
        (Event.probe (fireTime st) false :: rcv.2.1 ++ r.1, r.2)
      else
        (Event.probe (fireTime st) false :: rcv.2.1, rcv.1)

/-- The state of a freshly spawned supervisor: time.NewTimer(0) makes the
first timer fire immediately. -/
def initState : SupState :=
  { clock := 0, deadline := 0, pings := 0, conns := 0, handle := 0 }

def isFactory : Event → Bool
  | .factory _ _ => true
  | _ => false

def isProbe : Event → Bool
  | .probe _ _ => true
  | _ => false

def countFactory (evs : List Event) : Nat := (evs.filter isFactory).length

def countProbe (evs : List Event) : Nat := (evs.filter isProbe).length

/-- Factory calls starting at or after time t. -/
def factoryAtOrAfter (t : Nat) (evs : List Event) : Nat :=
  (evs.filter (fun e =>
    match e with
    | .factory s _ => decide (t ≤ s)
    | _ => false)).length

/-- Start times of the probe events, in trace order. -/
def probeStarts (evs : List Event) : List Nat :=
  evs.filterMap (fun e =>
    match e with
    | .probe s _ => some s
    | _ => none)

lemma recover_no_probe (o : Oracle) :
    ∀ (n : Nat) (st : SupState) (e : Event),
      e ∈ (recover o n st).2.1 → isProbe e = false := by
  intro n
  induction n with
  | zero =>
    intro st e he
    simp [recover] at he
  | succ n ih =>
    intro st e he
    unfold recover at he
    cases hc : o.connectOk st.conns <;> simp only [hc] at he
    · simp only [Bool.false_eq_true, if_false, List.mem_cons] at he
      rcases he with he | he
      · subst he; rfl
      · exact ih _ e he
    · simp only [if_true, List.mem_cons, List.mem_singleton] at he
      rcases he with he | he | he
      · subst he; rfl
      · subst he; rfl
      · simp at he

lemma recover_countProbe (o : Oracle) (n : Nat) (st : SupState) :
    countProbe (recover o n st).2.1 = 0 := by
  have h : (recover o n st).2.1.filter isProbe = [] := by
    rw [List.filter_eq_nil_iff]
    intro e he
    simp [recover_no_probe o n st e he]
  simp [countProbe, h]

lemma recover_clock_le (o : Oracle) :
    ∀ (n : Nat) (st : SupState), st.clock ≤ (recover o n st).1.clock := by
  intro n
  induction n with
  | zero => intro st; simp [recover]
  | succ n ih =>
    intro st
    unfold recover
    cases hc : o.connectOk st.conns <;> simp only [hc]
    · simp only [Bool.false_eq_true, if_false]
      have h2 := ih
        { st with
            clock := st.clock + o.connectDur st.conns
            conns := st.conns + 1
            handle := st.handle }
      calc st.clock ≤ st.clock + o.connectDur st.conns := Nat.le_add_right _ _
        _ ≤ _ := h2
    · simp only [if_true]
      exact Nat.le_add_right _ _

lemma recover_all_fail (o : Oracle) :
    ∀ (n : Nat) (st : SupState),
      (∀ k, k < n → o.connectOk (st.conns + k) = false) →
      (recover o n st).2.2 = false ∧ (recover o n st).1.handle = st.handle ∧
        countFactory (recover o n st).2.1 = n := by
  intro n
  induction n with
  | zero => intro st _; exact ⟨rfl, rfl, rfl⟩
  | succ n ih =>
    intro st hf
    have h0 : o.connectOk st.conns = false := by simpa using hf 0 (Nat.succ_pos n)
    have hrec := ih
      { st with
          clock := st.clock + o.connectDur st.conns
          conns := st.conns + 1
          handle := st.handle }
      (fun k hk => by
        simpa [Nat.add_assoc, Nat.add_comm 1 k, Nat.add_left_comm] using
          hf (k + 1) (Nat.succ_lt_succ hk))
    unfold recover
    simp only [h0, Bool.false_eq_true, if_false]
    refine ⟨hrec.1, hrec.2.1, ?_⟩
    simp [countFactory, isFactory, List.filter] at hrec ⊢
    exact hrec.2.2

lemma recover_probeStarts (o : Oracle) (n : Nat) (st : SupState) :
    probeStarts (recover o n st).2.1 = [] := by
  rw [probeStarts, List.filterMap_eq_nil_iff]
  intro e he
  have h := recover_no_probe o n st e he
  cases e <;> simp_all [isProbe]

lemma runSup_cancelled (o : Oracle) (fuel : Nat) (st : SupState)
    (h : o.cancelled (fireTime st) = true) :
    runSup o (fuel + 1) st = ([], st) := by
  simp [runSup, h]

lemma runSup_ping_ok (o : Oracle) (fuel : Nat) (st : SupState)
    (hc : o.cancelled (fireTime st) = false) (hp : o.pingOk st.pings = true) :
    runSup o (fuel + 1) st =
      (Event.probe (fireTime st) true ::
          (runSup o fuel (resetTimer (afterPing o st))).1,
        (runSup o fuel (resetTimer (afterPing o st))).2) := by
  simp [runSup, hc, hp]

lemma runSup_recover_ok (o : Oracle) (fuel : Nat) (st : SupState)
    (hc : o.cancelled (fireTime st) = false) (hp : o.pingOk st.pings = false)
    (hr : (recover o reconnectAttempts (afterPing o st)).2.2 = true) :
    runSup o (fuel + 1) st =
      (Event.probe (fireTime st) false ::
          (recover o reconnectAttempts (afterPing o st)).2.1 ++
            (runSup o fuel
              (resetTimer (recover o reconnectAttempts (afterPing o st)).1)).1,
        (runSup o fuel
          (resetTimer (recover o reconnectAttempts (afterPing o st)).1)).2) := by
  simp [runSup, hc, hp, hr]

lemma runSup_recover_fail (o : Oracle) (fuel : Nat) (st : SupState)
    (hc : o.cancelled (fireTime st) = false) (hp : o.pingOk st.pings = false)
    (hr : (recover o reconnectAttempts (afterPing o st)).2.2 = false) :
    runSup o (fuel + 1) st =
      (Event.probe (fireTime st) false ::
          (recover o reconnectAttempts (afterPing o st)).2.1,
        (recover o reconnectAttempts (afterPing o st)).1) := by
  simp [runSup, hc, hp, hr]

lemma probeStarts_cons_probe (s : Nat) (b : Bool) (evs : List Event) :
    probeStarts (Event.probe s b :: evs) = s :: probeStarts evs := rfl

lemma probeStarts_append (l1 l2 : List Event) :
    probeStarts (l1 ++ l2) = probeStarts l1 ++ probeStarts l2 :=
  List.filterMap_append l1 l2 _

lemma fireTime_resetTimer (st : SupState) :
    fireTime (resetTimer st) = st.clock + pingInterval := by
  simp [fireTime, resetTimer]

lemma afterPing_clock_ge (o : Oracle) (st : SupState) :
    fireTime st ≤ (afterPing o st).clock :=
  Nat.le_add_right _ _

lemma run_probe_ge (o : Oracle) :
    ∀ (fuel : Nat) (st : SupState) (s : Nat),
      s ∈ probeStarts (runSup o fuel st).1 → fireTime st ≤ s := by
  intro fuel
  induction fuel with
  | zero =>
    intro st s hs
    simp [runSup, probeStarts] at hs
  | succ fuel ih =>
    intro st s hs
    by_cases hc : o.cancelled (fireTime st) = true
    · rw [runSup_cancelled o fuel st hc] at hs
      simp [probeStarts] at hs
    · rw [Bool.not_eq_true] at hc
      cases hp : o.pingOk st.pings
      · cases hr : (recover o reconnectAttempts (afterPing o st)).2.2
        · simp only [runSup_recover_fail o fuel st hc hp hr, probeStarts_cons_probe,
            recover_probeStarts, List.mem_singleton] at hs
          omega
        · simp only [runSup_recover_ok o fuel st hc hp hr, List.cons_append,
            probeStarts_cons_probe, probeStarts_append, recover_probeStarts,
            List.nil_append, List.mem_cons] at hs
          rcases hs with hs | hs
          · omega
          · have h1 := ih _ _ hs
            rw [fireTime_resetTimer] at h1
            have h2 := recover_clock_le o reconnectAttempts (afterPing o st)
            have h3 := afterPing_clock_ge o st
            omega
      · simp only [runSup_ping_ok o fuel st hc hp, probeStarts_cons_probe,
          List.mem_cons] at hs
        rcases hs with hs | hs
        · omega
        · have h1 := ih _ _ hs
          rw [fireTime_resetTimer] at h1
          have h3 := afterPing_clock_ge o st
          omega

lemma run_probe_chain (o : Oracle) :
    ∀ (fuel : Nat) (st : SupState),
      List.Chain' (fun a b => a + pingInterval ≤ b)
        (probeStarts (runSup o fuel st).1) := by
  intro fuel
  induction fuel with
  | zero =>
    intro st
    simp [runSup, probeStarts]
  | succ fuel ih =>
    intro st
    by_cases hc : o.cancelled (fireTime st) = true
    · rw [runSup_cancelled o fuel st hc]
      simp [probeStarts]
    · rw [Bool.not_eq_true] at hc
      cases hp : o.pingOk st.pings
      · cases hr : (recover o reconnectAttempts (afterPing o st)).2.2
        · simp only [runSup_recover_fail o fuel st hc hp hr, probeStarts_cons_probe,
            recover_probeStarts]
          simp
        · simp only [runSup_recover_ok o fuel st hc hp hr, List.cons_append,
            probeStarts_cons_probe, probeStarts_append, recover_probeStarts,
            List.nil_append]
          rw [List.chain'_cons']
          refine ⟨?_, ih _⟩
          intro y hy
          have hmem := List.mem_of_mem_head? hy
          have h1 := run_probe_ge o fuel _ y hmem
          rw [fireTime_resetTimer] at h1
          have h2 := recover_clock_le o reconnectAttempts (afterPing o st)
          have h3 := afterPing_clock_ge o st
          omega
      · simp only [runSup_ping_ok o fuel st hc hp, probeStarts_cons_probe]
        rw [List.chain'_cons']
        refine ⟨?_, ih _⟩
        intro y hy
        have hmem := List.mem_of_mem_head? hy
        have h1 := run_probe_ge o fuel _ y hmem
        rw [fireTime_resetTimer] at h1
        have h3 := afterPing_clock_ge o st
        omega

lemma countFactory_cons_probe (s : Nat) (b : Bool) (evs : List Event) :
    countFactory (Event.probe s b :: evs) = countFactory evs := rfl

lemma countProbe_cons_probe (s : Nat) (b : Bool) (evs : List Event) :
    countProbe (Event.probe s b :: evs) = countProbe evs + 1 := rfl

/-- C8: starting from the fresh state the first probe fires at time 0 (no
initial delay), and consecutive probe start times are always at least one
ping interval apart — in particular every probe is at least one interval
after the previous (hence after the previous successful) probe. -/
theorem first_probe_immediate_then_interval (o : Oracle) (fuel : Nat)
    (h : o.cancelled 0 = false) :
    (probeStarts (runSup o (fuel + 1) initState).1).head? = some 0 ∧
    List.Chain' (fun a b => a + pingInterval ≤ b)
      (probeStarts (runSup o (fuel + 1) initState).1) := by
  have hc : o.cancelled (fireTime initState) = false := by
    simpa [fireTime, initState] using h
  refine ⟨?_, run_probe_chain o (fuel + 1) initState⟩
  cases hp : o.pingOk initState.pings
  · cases hr : (recover o reconnectAttempts (afterPing o initState)).2.2
    · simp only [runSup_recover_fail o fuel initState hc hp hr,
        probeStarts_cons_probe, List.head?_cons]
      simp [fireTime, initState]
    · simp only [runSup_recover_ok o fuel initState hc hp hr, List.cons_append,
        probeStarts_cons_probe, List.head?_cons]
      simp [fireTime, initState]
  · simp only [runSup_ping_ok o fuel initState hc hp, probeStarts_cons_probe,
      List.head?_cons]
    simp [fireTime, initState]

/-- An environment whose pings always succeed and whose context is never
cancelled. -/
def oAlive : Oracle :=
  { pingOk := fun _ => true
    pingDur := fun _ => 0
    connectOk := fun _ => true
    connectDur := fun _ => 0
    cancelAt := none }

/-- C8 witness: with always-healthy pings and no cancellation, three loop
iterations probe at 0 with interval-separated successors. -/
theorem first_probe_immediate_then_interval_witness :
    (probeStarts (runSup oAlive 3 initState).1).head? = some 0 ∧
    List.Chain' (fun a b => a + pingInterval ≤ b)
      (probeStarts (runSup oAlive 3 initState).1) :=
  first_probe_immediate_then_interval oAlive 2 (by decide)

/-- C5: when a probe fails and all reconnectAttempts factory calls fail, the
loop emits that one probe and exactly reconnectAttempts factory events and
returns: the trace is the same however much fuel remains (no further probe
or reconnection attempts), and the session keeps its previous handle. -/
theorem exhausted_recovery_failstop (o : Oracle) (st : SupState) (fuel : Nat)
    (hc : o.cancelled (fireTime st) = false)
    (hp : o.pingOk st.pings = false)
    (hf : ∀ k, k < reconnectAttempts → o.connectOk (st.conns + k) = false) :
    (runSup o (fuel + 1) st).1 = (runSup o 1 st).1 ∧
    (runSup o (fuel + 1) st).2.handle = st.handle ∧
    countFactory (runSup o (fuel + 1) st).1 = reconnectAttempts ∧
    countProbe (runSup o (fuel + 1) st).1 = 1 := by
  have hrec := recover_all_fail o reconnectAttempts (afterPing o st)
    (fun k hk => hf k hk)
  refine ⟨?_, ?_, ?_, ?_⟩
  · simp only [runSup_recover_fail o fuel st hc hp hrec.1,
      runSup_recover_fail o 0 st hc hp hrec.1]
  · simp only [runSup_recover_fail o fuel st hc hp hrec.1]
    exact hrec.2.1
  · simp only [runSup_recover_fail o fuel st hc hp hrec.1, countFactory_cons_probe]
    exact hrec.2.2
  · simp only [runSup_recover_fail o fuel st hc hp hrec.1, countProbe_cons_probe,
      recover_countProbe]

/-- An environment whose pings and factory calls always fail and whose
context is never cancelled. -/
def oDead : Oracle :=
  { pingOk := fun _ => false
    pingDur := fun _ => 0
    connectOk := fun _ => false
    connectDur := fun _ => 0
    cancelAt := none }

/-- C5 witness: with a failing probe and a factory failing all ten attempts,
six units of fuel yield the same trace as one — the supervisor terminated —
with ten factory calls, one probe, and the initial handle untouched. -/
theorem exhausted_recovery_failstop_witness :
    (runSup oDead 6 initState).1 = (runSup oDead 1 initState).1 ∧
    (runSup oDead 6 initState).2.handle = initState.handle ∧
    countFactory (runSup oDead 6 initState).1 = reconnectAttempts ∧
    countProbe (runSup oDead 6 initState).1 = 1 :=
  exhausted_recovery_failstop oDead initState 5 (by decide) (by decide)
    (by decide)

/-- An environment whose probe at time 0 takes 5 ms and fails, whose factory
calls all fail instantly, and whose governing context is cancelled at
absolute time 1 — during the recovery burst. -/
def oCancelMidRecovery : Oracle :=
  { pingOk := fun _ => false
    pingDur := fun _ => 5
    connectOk := fun _ => false
    connectDur := fun _ => 0
    cancelAt := some 1 }

/-- C4 counterexample: with the context cancelled at time 1, while the
supervisor is in recovery after the failed probe at time 0, all ten factory
calls still start at time 5 — after cancellation — so reconnection attempts
do occur after the governing context is cancelled, contrary to the claim. -/
theorem cancel_during_recovery_cex :
    Oracle.cancelled oCancelMidRecovery 1 = true ∧
    factoryAtOrAfter 1 (runSup oCancelMidRecovery 2 initState).1 = 10 := by
  decide

/-- C4 amended: no probe ever starts after the governing context is
cancelled, and from a wait state whose select resolves after cancellation
the loop stops at once, returning the state unchanged — but (per the
counterexample) reconnection attempts inside an ongoing recovery burst are
not interrupted. -/
theorem cancel_stops_probes (o : Oracle) (fuel : Nat) (st : SupState) :
    (∀ s b, Event.probe s b ∈ (runSup o fuel st).1 → o.cancelled s = false) ∧
    (o.cancelled (fireTime st) = true → runSup o fuel st = ([], st)) := by
  constructor
  · induction fuel generalizing st with
    | zero =>
      intro s b hs
      simp [runSup] at hs
    | succ fuel ih =>
      intro s b hs
      by_cases hc : o.cancelled (fireTime st) = true
      · rw [runSup_cancelled o fuel st hc] at hs
        simp at hs
      · rw [Bool.not_eq_true] at hc
        cases hp : o.pingOk st.pings
        · cases hr : (recover o reconnectAttempts (afterPing o st)).2.2
          · simp only [runSup_recover_fail o fuel st hc hp hr,
              List.mem_cons] at hs
            rcases hs with hs | hs
            · injection hs with h1 h2
              subst h1
              exact hc
            · have hnp := recover_no_probe o reconnectAttempts (afterPing o st) _ hs
              simp [isProbe] at hnp
          · simp only [runSup_recover_ok o fuel st hc hp hr, List.cons_append,
              List.mem_cons, List.mem_append] at hs
            rcases hs with hs | hs | hs
            · injection hs with h1 h2
              subst h1
              exact hc
            · have hnp := recover_no_probe o reconnectAttempts (afterPing o st) _ hs
              simp [isProbe] at hnp
            · exact ih _ s b hs
        · simp only [runSup_ping_ok o fuel st hc hp, List.mem_cons] at hs
          rcases hs with hs | hs
          · injection hs with h1 h2
            subst h1
            exact hc
          · exact ih _ s b hs
  · intro h
    cases fuel with
    | zero => rfl
    | succ fuel => exact runSup_cancelled o fuel st h

/-- An environment cancelled from time 0 onward. -/
def oCancelled : Oracle :=
  { pingOk := fun _ => true
    pingDur := fun _ => 0
    connectOk := fun _ => true
    connectDur := fun _ => 0
    cancelAt := some 0 }

/-- C4 amended witness: with the context cancelled from the start, the loop
stops immediately with no events. -/
theorem cancel_stops_probes_witness :
    runSup oCancelled 3 initState = ([], initState) :=
  (cancel_stops_probes oCancelled 3 initState).2 (by decide)

/-- Spawn events for the given handle in a trace. -/
def spawnCount (h : Nat) (evs : List Event) : Nat :=
  (evs.filter (fun e =>
    match e with
    | .spawn h2 => decide (h2 = h)
    | _ => false)).length

/-- An environment whose probes fail but whose first factory call succeeds. -/
def oFlaky : Oracle :=
  { pingOk := fun _ => false
    pingDur := fun _ => 0
    connectOk := fun _ => true
    connectDur := fun _ => 0
    cancelAt := none }

/-- C10 (code bug): after one failed probe and one successful reconnection,
the outer supervisor's session holds handle 1, and the nested Connect call
has spawned one additional supervisor goroutine whose inner session shares
that same handle — two supervisor loops then operate on one active
connection handle. -/
theorem reconnect_spawns_second_supervisor :
    (runSup oFlaky 1 initState).2.handle = 1 ∧
    spawnCount 1 (runSup oFlaky 1 initState).1 = 1 ∧
    Event.spawn 1 ∈ (runSup oFlaky 1 initState).1 := by
  decide
